import Mathlib

/-!
Shallow embedding of the CC98-Watchdog monitor (src/main.py, src/cc98.py).

External I/O (HTTP responses of the CC98 API, the outcome of the OAuth token
request, webhook delivery) is passed in explicitly as oracle values:
a raw HTTP outcome is `Except Unit (Nat × body)` — `.error ()` models a
raised network/parse exception, `.ok (status, body)` a received response
with its status code.  Python dict access `d.get(k)` / `d.get(k, v)` is
modelled with `Option` fields and `Option.getD`.
-/

namespace CC98Watchdog

/-! ### Python string primitives used by the rule (`keyword in title`, `str.lower`) -/

/-- Exact character-list match of `needle` against the start of `hay`. -/
def charsPfx : List Char → List Char → Bool
  | [], _ => true
  | _ :: _, [] => false
  | a :: as, b :: bs => a = b && charsPfx as bs

/-- Substring containment on character lists, Python's `needle in hay`. -/
def charsSub (needle : List Char) : List Char → Bool
  | [] => needle.isEmpty
  | h :: t => charsPfx needle (h :: t) || charsSub needle t

/-- Python `needle in hay` on strings: substring containment. -/
def strIn (needle hay : String) : Bool :=
  charsSub needle.data hay.data

/-- Python `s.lower()` restricted to ASCII case mapping (the letters appearing
in the keyword set are ASCII or CJK, where the two agree). -/
def pyLower (s : String) : String :=
  String.mk (s.data.map Char.toLower)

/-! ### Data model: topics (src/main.py uses raw dicts; absent keys are `none`) -/

/-- A topic as returned by `GET /topic/new`; every field is optional because the
code reads them with `dict.get`. -/
structure Topic where
  id : Option Nat
  boardId : Option Nat
  title : Option String
  userName : Option String
  time : Option String
deriving DecidableEq

/-- `t.get("id", 0)` — the id used everywhere in the polling loop. -/
def getId (t : Topic) : Nat := t.id.getD 0

/-- The fixed keyword list from src/main.py. -/
def KEYWORDS : List String :=
  ["前端", "网页", "网站", "后端", "服务器", "开发", "程序",
   "fullstack", "frontend", "backend", "web", "js", "javascript",
   "typescript", "react", "vue", "angular", "node", "html"]

/-- `check_topic_condition` from src/main.py: board 459 and any keyword in the
lowercased title. -/
def check_topic_condition (topic : Topic) : Bool :=
  let board_id := topic.boardId
  let title := pyLower (topic.title.getD "")
  if board_id = some 459 then
    if KEYWORDS.any (fun keyword => strIn keyword title) then true
    else false
  else false

/-- Spec-side notification rule, written from the specification's words:
"matches when `topic.boardId == configuredBoardId` and the lowercase title
contains any of a fixed set of lowercase keyword substrings". -/
def specRuleMatch (t : Topic) : Prop :=
  t.boardId = some 459 ∧ ∃ k ∈ KEYWORDS, strIn k (pyLower (t.title.getD "")) = true

/-! ### Fetching: `CC98Client.get_new_topics` (src/cc98.py) -/

/-- `get_new_topics`: on a received response, returns the body when the status
is 200 and the empty list otherwise; a raised exception propagates. -/
def get_new_topics (resp : Except Unit (Nat × List Topic)) : Except Unit (List Topic) :=
  match resp with
  | .error _ => .error ()
  | .ok (status, body) => if status = 200 then .ok body else .ok []

/-- The ids of the raw response body (for stating no-duplicate hypotheses). -/
def bodyIds : Except Unit (Nat × List Topic) → List Nat
  | .error _ => []
  | .ok (_, b) => b.map getId

/-! ### Candidate selection and sorting (src/main.py lines 114-118) -/

/-- Comparison key of `new_topics.sort(key=lambda x: x.get("id", 0))`. -/
def idLe (a b : Topic) : Prop := getId a ≤ getId b

instance : DecidableRel idLe := fun a b => Nat.decLe (getId a) (getId b)

instance : IsTotal Topic idLe := ⟨fun a b => Nat.le_total (getId a) (getId b)⟩

instance : IsTrans Topic idLe := ⟨fun _ _ _ => Nat.le_trans⟩

/-- Lines 115-118 of src/main.py: keep the topics with id strictly above the
current mark and sort them by id ascending (a stable sort, modelled by
insertion sort). -/
def selectNew (mark : Nat) (topics : List Topic) : List Topic :=
  List.insertionSort idLe (topics.filter (fun t => decide (mark < getId t)))

/-! ### One poll cycle (the body of the `while True` loop in `main`) -/

/-- Observable events of a cycle, used to state counting and ordering claims. -/
inductive Ev where
  | fetchNew
  | loginAttempt
  | dispatch (tid : Nat)
  | ignored (tid : Nat)
deriving DecidableEq

/-- The ids carried by processing events (both dispatched and ignored topics). -/
def procEvId : Ev → Option Nat
  | Ev.dispatch tid => some tid
  | Ev.ignored tid => some tid
  | _ => none

/-- The ids carried by dispatch events only. -/
def dispEvId : Ev → Option Nat
  | Ev.dispatch tid => some tid
  | _ => none

def procIds (evs : List Ev) : List Nat := evs.filterMap procEvId

def dispIds (evs : List Ev) : List Nat := evs.filterMap dispEvId

/-- The `for topic in new_topics` loop (src/main.py lines 120-150): walks the
sorted candidates carrying `new_max_id`.  A matched topic is dispatched
(`send_dingtalk_message`); `sendFails t = true` models that call raising, which
aborts the cycle body (result `none`) so the outer handler keeps the old mark.
Per-topic content-fetch failures are caught inside the loop and do not abort.
Both matched and unmatched topics update `new_max_id`. -/
def goProcess (sendFails : Topic → Bool) : List Topic → Nat → List Ev × Option Nat
  | [], acc => ([], some acc)
  | t :: ts, acc =>
    if check_topic_condition t then
      if sendFails t then ([Ev.dispatch (getId t)], none)
      else
        (Ev.dispatch (getId t) ::
           (goProcess sendFails ts (if getId t > acc then getId t else acc)).1,
         (goProcess sendFails ts (if getId t > acc then getId t else acc)).2)
    else
      (Ev.ignored (getId t) ::
         (goProcess sendFails ts (if getId t > acc then getId t else acc)).1,
       (goProcess sendFails ts (if getId t > acc then getId t else acc)).2)

/-- Steps 114-152 of src/main.py on a non-empty fetched batch: filter, sort,
process, and (on normal completion) yield the new mark. -/
def processTopics (sendFails : Topic → Bool) (mark : Nat) (topics : List Topic) :
    List Ev × Option Nat :=
  goProcess sendFails (selectNew mark topics) mark

/-- The external outcomes one cycle can consume: the first fetch response, the
result of `client.login()` if invoked, the re-fetch response if invoked, and
whether dispatching a given topic raises. -/
structure CycleEnv where
  resp1 : Except Unit (Nat × List Topic)
  loginOk : Bool
  resp2 : Except Unit (Nat × List Topic)
  sendFails : Topic → Bool

/-- One iteration of the `while True` loop in `main` (src/main.py lines
100-158), as a total function: every exception escaping the cycle body is
caught at the cycle boundary (line 157) leaving the mark unchanged, so the
cycle always returns the event trace and the mark after the cycle. -/
def runCycle (env : CycleEnv) (mark : Nat) : List Ev × Nat :=
  match get_new_topics env.resp1 with
  | .error _ => ([Ev.fetchNew], mark)
  | .ok t1 =>
    if t1.isEmpty then
      if env.loginOk then
        match get_new_topics env.resp2 with
        | .error _ => ([Ev.fetchNew, Ev.loginAttempt, Ev.fetchNew], mark)
        | .ok t2 =>
          if t2.isEmpty then ([Ev.fetchNew, Ev.loginAttempt, Ev.fetchNew], mark)
          else
            (Ev.fetchNew :: Ev.loginAttempt :: Ev.fetchNew ::
               (processTopics env.sendFails mark t2).1,
             (processTopics env.sendFails mark t2).2.getD mark)
      else ([Ev.fetchNew, Ev.loginAttempt], mark)
    else
      (Ev.fetchNew :: (processTopics env.sendFails mark t1).1,
       (processTopics env.sendFails mark t1).2.getD mark)

/-- The mark after a finite sequence of poll cycles. -/
def runCycles (envs : List CycleEnv) (mark : Nat) : Nat :=
  envs.foldl (fun m e => (runCycle e m).2) mark

/-! ### Initialization (src/main.py lines 79-94) -/

/-- `max(t.get("id", 0) for t in topics)` over a non-empty list of naturals. -/
def listMax (l : List Nat) : Nat := l.foldl Nat.max 0

/-- The baseline `max_id` set before the loop: `none` when the initial
`get_new_topics` raises (main returns at line 94), `some 0` on an empty fetch,
otherwise the maximum fetched id. -/
def initMaxId (resp : Except Unit (Nat × List Topic)) : Option Nat :=
  match get_new_topics resp with
  | .error _ => none
  | .ok topics => if topics.isEmpty then some 0 else some (listMax (topics.map getId))

/-- `main` observed after finitely many cycles: `none` means the process
returned before entering the polling loop (failed initial login at line 75-77,
or a raised initial fetch at line 92-94). -/
def mainRun (loginOk : Bool) (initResp : Except Unit (Nat × List Topic))
    (envs : List CycleEnv) : Option Nat :=
  if loginOk then
    match initMaxId initResp with
    | none => none
    | some m0 => some (runCycles envs m0)
  else none

/-- Spec-side formula for the mark after a cycle, written from the
specification's words: "the maximum id seen in this cycle's fetched set that
exceeds the previous mark" (the previous mark when none exceeds it). -/
def specNewMark (mark : Nat) (topics : List Topic) : Nat :=
  ((topics.map getId).filter (fun i => decide (mark < i))).foldl Nat.max mark

/-! ### `CC98Client.login` (src/cc98.py lines 120-159) -/

/-- The token-bearing fields of `CC98Client` that `login` reads and writes. -/
structure Client where
  client_id : Option String
  client_secret : Option String
  access_token : Option String
  refresh_token : Option String
deriving DecidableEq

/-- A received response of the token endpoint (`token_data.get(...)` keys). -/
structure TokenResp where
  status : Nat
  access_token : Option String
  refresh_token : Option String
deriving DecidableEq

/-- Python truthiness of an optional string (`not self.client_id`). -/
def truthyOpt : Option String → Bool
  | none => false
  | some s => !s.isEmpty

/-- Result of one `login()` call: the returned boolean, the client state after
the call, and how many network requests were issued. -/
structure LoginResult where
  ok : Bool
  client : Client
  netCalls : Nat
deriving DecidableEq

/-- `CC98Client.login`: fails immediately without a request when client_id or
client_secret is unresolved; issues one POST otherwise; stores the tokens only
on a 200 response; returns false on a non-200 or a raised exception. -/
def login (c : Client) (resp : Except Unit TokenResp) : LoginResult :=
  if truthyOpt c.client_id && truthyOpt c.client_secret then
    match resp with
    | .error _ => ⟨false, c, 1⟩
    | .ok r =>
      if r.status = 200 then
        ⟨true, { c with access_token := r.access_token, refresh_token := r.refresh_token }, 1⟩
      else ⟨false, c, 1⟩
  else ⟨false, c, 0⟩

/-! ### Board directory (src/cc98.py lines 48-79) -/

/-- A sub-board entry of the `/board/all` response. -/
structure SubBoard where
  id : Nat
  name : String
deriving DecidableEq

/-- A top-level board with its listed sub-boards. -/
structure RootBoard where
  id : Nat
  name : String
  boards : List SubBoard
deriving DecidableEq

/-- `self.board_map[k] = v`: overwrite or append. -/
def mapSet (m : List (Nat × String)) (k : Nat) (v : String) : List (Nat × String) :=
  match m with
  | [] => [(k, v)]
  | (k', v') :: rest => if k' = k then (k, v) :: rest else (k', v') :: mapSet rest k v

/-- `self.board_map.get(k)`. -/
def mapGet (m : List (Nat × String)) (k : Nat) : Option String :=
  match m with
  | [] => none
  | (k', v') :: rest => if k' = k then some v' else mapGet rest k

/-- `CC98Client.get_all_boards`: body on 200, empty list otherwise, raised
exception propagates. -/
def get_all_boards (resp : Except Unit (Nat × List RootBoard)) : Except Unit (List RootBoard) :=
  match resp with
  | .error _ => .error ()
  | .ok (status, body) => if status = 200 then .ok body else .ok []

/-- The inner loop of `_refresh_board_map`: enter the root board then each of
its sub-boards. -/
def insertRoot (m : List (Nat × String)) (root : RootBoard) : List (Nat × String) :=
  root.boards.foldl (fun acc b => mapSet acc b.id b.name) (mapSet m root.id root.name)

/-- `CC98Client._refresh_board_map`: a raised `get_all_boards` is caught and
the previous mapping is retained; otherwise every fetched id→name pair is
entered. -/
def refresh_board_map (m : List (Nat × String))
    (resp : Except Unit (Nat × List RootBoard)) : List (Nat × String) :=
  match get_all_boards resp with
  | .error _ => m
  | .ok roots => roots.foldl insertRoot m

/-- Python falsiness of the looked-up name (`if not name`): absent or empty. -/
def falsyName : Option String → Bool
  | none => true
  | some s => s.isEmpty

/-- The fallback string `f"Unknown Board ({board_id})"`. -/
def boardPlaceholder (board_id : Nat) : String :=
  "Unknown Board (" ++ toString board_id ++ ")"

/-- Python `name or fallback`. -/
def nameOr (n : Option String) (fallback : String) : String :=
  match n with
  | some s => if s.isEmpty then fallback else s
  | none => fallback

/-- The part of `get_board_name` after the initial-fill step: look up, refresh
once more on a falsy result, and fall back to the placeholder.  `oNext` is the
oracle outcome the next `_refresh_board_map` call would consume and `fillCount`
the number of refreshes already performed by this call. -/
def boardNameAfterFill (mA : List (Nat × String))
    (oNext : Except Unit (Nat × List RootBoard)) (fillCount : Nat) (board_id : Nat) :
    String × List (Nat × String) × Nat :=
  let n1 := mapGet mA board_id
  if falsyName n1 then
    let mB := refresh_board_map mA oNext
    (nameOr (mapGet mB board_id) (boardPlaceholder board_id), mB, fillCount + 1)
  else
    (nameOr n1 (boardPlaceholder board_id), mA, fillCount)

/-- `CC98Client.get_board_name`: fill the mapping first when it is empty, then
look up with one more refresh attempt on a miss.  `o1` and `o2` are the raw
outcomes consumed by the first and second `_refresh_board_map` call of this
invocation; the result carries the returned string, the mapping after the
call, and the number of refresh calls made. -/
def get_board_name (m0 : List (Nat × String))
    (o1 o2 : Except Unit (Nat × List RootBoard)) (board_id : Nat) :
    String × List (Nat × String) × Nat :=
  if m0.isEmpty then boardNameAfterFill (refresh_board_map m0 o1) o2 1 board_id
  else boardNameAfterFill m0 o1 0 board_id

/-! ### Helper lemmas -/

theorem stepEqMax (a i : Nat) : (if i > a then i else a) = Nat.max a i := by
  simp only [Nat.max_def]
  repeat' split
  all_goals omega

theorem natMax_right_comm (a b c : Nat) :
    Nat.max (Nat.max a b) c = Nat.max (Nat.max a c) b := by
  simp only [Nat.max_def]
  repeat' split
  all_goals omega

theorem le_foldl_max (l : List Nat) (a : Nat) : a ≤ l.foldl Nat.max a := by
  induction l generalizing a with
  | nil => exact Nat.le_refl a
  | cons i is ih =>
    simpa using Nat.le_trans (by simp only [Nat.max_def]; split <;> omega) (ih (Nat.max a i))

theorem foldl_max_perm {l₁ l₂ : List Nat} (p : l₁.Perm l₂) :
    ∀ a, l₁.foldl Nat.max a = l₂.foldl Nat.max a := by
  induction p with
  | nil => intro a; rfl
  | cons x _ ih => intro a; simp only [List.foldl_cons]; exact ih _
  | swap x y l =>
    intro a
    simp only [List.foldl_cons]
    rw [natMax_right_comm]
  | trans _ _ ih₁ ih₂ => intro a; exact (ih₁ a).trans (ih₂ a)

theorem map_getId_filter (mark : Nat) (l : List Topic) :
    (l.filter (fun t => decide (mark < getId t))).map getId
      = (l.map getId).filter (fun i => decide (mark < i)) := by
  induction l with
  | nil => rfl
  | cons t ts ih =>
    by_cases h : mark < getId t <;> simp [List.filter_cons, h, ih]

theorem goProcess_some_eq (sendFails : Topic → Bool) (l : List Topic) :
    ∀ acc a', (goProcess sendFails l acc).2 = some a' →
      a' = (l.map getId).foldl Nat.max acc := by
  induction l with
  | nil =>
    intro acc a' h
    simp only [goProcess, Option.some.injEq] at h
    simpa using h.symm
  | cons t ts ih =>
    intro acc a' h
    by_cases hc : check_topic_condition t
    · by_cases hs : sendFails t
      · simp [goProcess, hc, hs] at h
      · simp only [goProcess, hc, hs, if_true, if_false, Bool.false_eq_true] at h
        have h2 := ih _ _ h
        rw [stepEqMax] at h2
        simpa using h2
    · simp only [goProcess, hc, if_false, Bool.false_eq_true] at h
      have h2 := ih _ _ h
      rw [stepEqMax] at h2
      simpa using h2

theorem goProcess_some_le (sendFails : Topic → Bool) (l : List Topic)
    (acc a' : Nat) (h : (goProcess sendFails l acc).2 = some a') : acc ≤ a' := by
  rw [goProcess_some_eq sendFails l acc a' h]
  exact le_foldl_max _ _

theorem goProcess_procIds_subset (sendFails : Topic → Bool) (l : List Topic) :
    ∀ acc i, i ∈ procIds (goProcess sendFails l acc).1 → i ∈ l.map getId := by
  induction l with
  | nil => intro acc i h; simp [goProcess, procIds] at h
  | cons t ts ih =>
    intro acc i h
    by_cases hc : check_topic_condition t
    · by_cases hs : sendFails t
      · simp only [goProcess, hc, hs, if_true, procIds, List.filterMap_cons, procEvId,
          List.filterMap_nil] at h
        simp only [List.mem_singleton] at h
        simp [h]
      · simp only [goProcess, hc, hs, if_true, if_false, Bool.false_eq_true, procIds,
          List.filterMap_cons, procEvId] at h
        rcases List.mem_cons.mp h with h1 | h2
        · simp [h1]
        · exact List.mem_cons_of_mem _ (ih _ i h2)
    · simp only [goProcess, hc, if_false, Bool.false_eq_true, procIds,
        List.filterMap_cons, procEvId] at h
      rcases List.mem_cons.mp h with h1 | h2
      · simp [h1]
      · exact List.mem_cons_of_mem _ (ih _ i h2)

theorem goProcess_dispIds_subset (sendFails : Topic → Bool) (l : List Topic) :
    ∀ acc i, i ∈ dispIds (goProcess sendFails l acc).1 → i ∈ l.map getId := by
  induction l with
  | nil => intro acc i h; simp [goProcess, dispIds] at h
  | cons t ts ih =>
    intro acc i h
    by_cases hc : check_topic_condition t
    · by_cases hs : sendFails t
      · simp only [goProcess, hc, hs, if_true, dispIds, List.filterMap_cons, dispEvId,
          List.filterMap_nil] at h
        simp only [List.mem_singleton] at h
        simp [h]
      · simp only [goProcess, hc, hs, if_true, if_false, Bool.false_eq_true, dispIds,
          List.filterMap_cons, dispEvId] at h
        rcases List.mem_cons.mp h with h1 | h2
        · simp [h1]
        · exact List.mem_cons_of_mem _ (ih _ i h2)
    · simp only [goProcess, hc, if_false, Bool.false_eq_true, dispIds,
        List.filterMap_cons, dispEvId] at h
      exact List.mem_cons_of_mem _ (ih _ i h)

theorem goProcess_procIds_pairwise (sendFails : Topic → Bool) (l : List Topic) :
    ∀ acc, (l.map getId).Pairwise (· < ·) →
      (procIds (goProcess sendFails l acc).1).Pairwise (· < ·) := by
  induction l with
  | nil => intro acc _; simp [goProcess, procIds]
  | cons t ts ih =>
    intro acc hp
    simp only [List.map_cons, List.pairwise_cons] at hp
    by_cases hc : check_topic_condition t
    · by_cases hs : sendFails t
      · simp [goProcess, hc, hs, procIds, List.filterMap_cons, procEvId]
      · simp only [goProcess, hc, hs, if_true, if_false, Bool.false_eq_true, procIds,
          List.filterMap_cons, procEvId]
        exact List.pairwise_cons.mpr
          ⟨fun j hj => hp.1 j (goProcess_procIds_subset sendFails ts _ j hj),
           ih _ hp.2⟩
    · simp only [goProcess, hc, if_false, Bool.false_eq_true, procIds,
        List.filterMap_cons, procEvId]
      exact List.pairwise_cons.mpr
        ⟨fun j hj => hp.1 j (goProcess_procIds_subset sendFails ts _ j hj),
         ih _ hp.2⟩

theorem goProcess_dispIds_pairwise (sendFails : Topic → Bool) (l : List Topic) :
    ∀ acc, (l.map getId).Pairwise (· < ·) →
      (dispIds (goProcess sendFails l acc).1).Pairwise (· < ·) := by
  induction l with
  | nil => intro acc _; simp [goProcess, dispIds]
  | cons t ts ih =>
    intro acc hp
    simp only [List.map_cons, List.pairwise_cons] at hp
    by_cases hc : check_topic_condition t
    · by_cases hs : sendFails t
      · simp [goProcess, hc, hs, dispIds, List.filterMap_cons, dispEvId]
      · simp only [goProcess, hc, hs, if_true, if_false, Bool.false_eq_true, dispIds,
          List.filterMap_cons, dispEvId]
        exact List.pairwise_cons.mpr
          ⟨fun j hj => hp.1 j (goProcess_dispIds_subset sendFails ts _ j hj),
           ih _ hp.2⟩
    · simp only [goProcess, hc, if_false, Bool.false_eq_true, dispIds,
        List.filterMap_cons, dispEvId]
      exact ih _ hp.2

theorem goProcess_no_cycle_events (sendFails : Topic → Bool) (l : List Topic) :
    ∀ acc, Ev.fetchNew ∉ (goProcess sendFails l acc).1
      ∧ Ev.loginAttempt ∉ (goProcess sendFails l acc).1 := by
  induction l with
  | nil => intro acc; simp [goProcess]
  | cons t ts ih =>
    intro acc
    by_cases hc : check_topic_condition t
    · by_cases hs : sendFails t
      · simp [goProcess, hc, hs]
      · simpa [goProcess, hc, hs] using ih _
    · simpa [goProcess, hc] using ih _

theorem mem_selectNew (mark : Nat) (topics : List Topic) (t : Topic) :
    t ∈ selectNew mark topics ↔ t ∈ topics ∧ mark < getId t := by
  simp [selectNew, List.mem_insertionSort, List.mem_filter]

theorem selectNew_ids_pairwise (mark : Nat) (b : List Topic)
    (h : (b.map getId).Nodup) :
    ((selectNew mark b).map getId).Pairwise (· < ·) := by
  have hs : List.Sorted idLe (selectNew mark b) :=
    List.sorted_insertionSort idLe (b.filter (fun t => decide (mark < getId t)))
  have hle : ((selectNew mark b).map getId).Pairwise (· ≤ ·) :=
    List.Pairwise.map getId (fun _ _ hab => hab) hs
  have hperm : ((selectNew mark b).map getId).Perm
      ((b.filter (fun t => decide (mark < getId t))).map getId) :=
    List.Perm.map getId
      (List.perm_insertionSort idLe (b.filter (fun t => decide (mark < getId t))))
  have hsub : ((b.filter (fun t => decide (mark < getId t))).map getId).Sublist
      (b.map getId) :=
    List.Sublist.map getId (List.filter_sublist b)
  have hnd : ((selectNew mark b).map getId).Nodup :=
    hperm.nodup_iff.mpr (List.Nodup.sublist hsub h)
  exact List.Sorted.lt_of_le hle hnd

theorem processTopics_some_eq (sendFails : Topic → Bool) (mark : Nat)
    (topics : List Topic) (m' : Nat)
    (h : (processTopics sendFails mark topics).2 = some m') :
    m' = specNewMark mark topics := by
  have h1 := goProcess_some_eq sendFails (selectNew mark topics) mark m' h
  have h2 : ((selectNew mark topics).map getId).Perm
      ((topics.filter (fun t => decide (mark < getId t))).map getId) :=
    List.Perm.map getId
      (List.perm_insertionSort idLe (topics.filter (fun t => decide (mark < getId t))))
  rw [h1, foldl_max_perm h2, map_getId_filter]
  rfl

theorem processTopics_markLe (sendFails : Topic → Bool) (mark : Nat)
    (topics : List Topic) : mark ≤ ((processTopics sendFails mark topics).2.getD mark) := by
  cases h : (processTopics sendFails mark topics).2 with
  | none => simp
  | some a' => simpa using goProcess_some_le sendFails (selectNew mark topics) mark a' h

theorem processTopics_ids_gt (sendFails : Topic → Bool) (mark : Nat)
    (topics : List Topic) :
    ∀ i ∈ procIds (processTopics sendFails mark topics).1, mark < i := by
  intro i hi
  have h1 := goProcess_procIds_subset sendFails (selectNew mark topics) mark i hi
  rcases List.mem_map.mp h1 with ⟨t, ht, rfl⟩
  exact ((mem_selectNew mark topics t).mp ht).2

/-! ### Case-reduction lemmas for one cycle -/

theorem runCycle_fetch_raises (env : CycleEnv) (mark : Nat)
    (h : get_new_topics env.resp1 = .error ()) :
    runCycle env mark = ([Ev.fetchNew], mark) := by
  simp [runCycle, h]

theorem runCycle_nonempty (env : CycleEnv) (mark : Nat) (b : List Topic)
    (h : get_new_topics env.resp1 = .ok b) (hne : b.isEmpty = false) :
    runCycle env mark = (Ev.fetchNew :: (processTopics env.sendFails mark b).1,
      (processTopics env.sendFails mark b).2.getD mark) := by
  simp [runCycle, h, hne]

theorem runCycle_empty_login_fails (env : CycleEnv) (mark : Nat)
    (h : get_new_topics env.resp1 = .ok []) (hl : env.loginOk = false) :
    runCycle env mark = ([Ev.fetchNew, Ev.loginAttempt], mark) := by
  simp [runCycle, h, hl]

theorem runCycle_empty_refetch_raises (env : CycleEnv) (mark : Nat)
    (h : get_new_topics env.resp1 = .ok []) (hl : env.loginOk = true)
    (h2 : get_new_topics env.resp2 = .error ()) :
    runCycle env mark = ([Ev.fetchNew, Ev.loginAttempt, Ev.fetchNew], mark) := by
  simp [runCycle, h, hl, h2]

theorem runCycle_empty_refetch_empty (env : CycleEnv) (mark : Nat)
    (h : get_new_topics env.resp1 = .ok []) (hl : env.loginOk = true)
    (h2 : get_new_topics env.resp2 = .ok []) :
    runCycle env mark = ([Ev.fetchNew, Ev.loginAttempt, Ev.fetchNew], mark) := by
  simp [runCycle, h, hl, h2]

theorem runCycle_empty_refetch_nonempty (env : CycleEnv) (mark : Nat) (b : List Topic)
    (h : get_new_topics env.resp1 = .ok []) (hl : env.loginOk = true)
    (h2 : get_new_topics env.resp2 = .ok b) (hne : b.isEmpty = false) :
    runCycle env mark = (Ev.fetchNew :: Ev.loginAttempt :: Ev.fetchNew ::
        (processTopics env.sendFails mark b).1,
      (processTopics env.sendFails mark b).2.getD mark) := by
  simp [runCycle, h, hl, h2, hne]

theorem runCycle_mark_le (env : CycleEnv) (mark : Nat) : mark ≤ (runCycle env mark).2 := by
  cases h : get_new_topics env.resp1 with
  | error u =>
    cases u
    rw [runCycle_fetch_raises env mark h]
  | ok b =>
    cases hne : b.isEmpty with
    | true =>
      have hb : b = [] := List.isEmpty_iff.mp hne
      subst hb
      cases hl : env.loginOk with
      | false => rw [runCycle_empty_login_fails env mark h hl]
      | true =>
        cases h2 : get_new_topics env.resp2 with
        | error u2 =>
          cases u2
          rw [runCycle_empty_refetch_raises env mark h hl h2]
        | ok b2 =>
          cases hne2 : b2.isEmpty with
          | true =>
            have hb2 : b2 = [] := List.isEmpty_iff.mp hne2
            subst hb2
            rw [runCycle_empty_refetch_empty env mark h hl h2]
          | false =>
            rw [runCycle_empty_refetch_nonempty env mark b2 h hl h2 hne2]
            exact processTopics_markLe env.sendFails mark b2
    | false =>
      rw [runCycle_nonempty env mark b h hne]
      exact processTopics_markLe env.sendFails mark b

theorem runCycles_mark_le (envs : List CycleEnv) (mark : Nat) : mark ≤ runCycles envs mark := by
  induction envs generalizing mark with
  | nil => exact Nat.le_refl mark
  | cons e es ih =>
    have h1 := runCycle_mark_le e mark
    have h2 := ih ((runCycle e mark).2)
    simpa [runCycles, List.foldl_cons] using Nat.le_trans h1 h2

theorem runCycle_ids_gt (env : CycleEnv) (mark : Nat) :
    ∀ i ∈ procIds (runCycle env mark).1, mark < i := by
  intro i hi
  cases h : get_new_topics env.resp1 with
  | error u =>
    cases u
    rw [runCycle_fetch_raises env mark h] at hi
    simp [procIds, procEvId] at hi
  | ok b =>
    cases hne : b.isEmpty with
    | true =>
      have hb : b = [] := List.isEmpty_iff.mp hne
      subst hb
      cases hl : env.loginOk with
      | false =>
        rw [runCycle_empty_login_fails env mark h hl] at hi
        simp [procIds, procEvId] at hi
      | true =>
        cases h2 : get_new_topics env.resp2 with
        | error u2 =>
          cases u2
          rw [runCycle_empty_refetch_raises env mark h hl h2] at hi
          simp [procIds, procEvId] at hi
        | ok b2 =>
          cases hne2 : b2.isEmpty with
          | true =>
            have hb2 : b2 = [] := List.isEmpty_iff.mp hne2
            subst hb2
            rw [runCycle_empty_refetch_empty env mark h hl h2] at hi
            simp [procIds, procEvId] at hi
          | false =>
            rw [runCycle_empty_refetch_nonempty env mark b2 h hl h2 hne2] at hi
            simp only [procIds, List.filterMap_cons, procEvId] at hi
            exact processTopics_ids_gt env.sendFails mark b2 i hi
    | false =>
      rw [runCycle_nonempty env mark b h hne] at hi
      simp only [procIds, List.filterMap_cons, procEvId] at hi
      exact processTopics_ids_gt env.sendFails mark b i hi

theorem get_new_topics_ok_nodup (r : Except Unit (Nat × List Topic)) (b : List Topic)
    (h : get_new_topics r = .ok b) (hn : (bodyIds r).Nodup) : (b.map getId).Nodup := by
  cases r with
  | error u => simp [get_new_topics] at h
  | ok p =>
    obtain ⟨s, body⟩ := p
    by_cases hs : s = 200
    · simp only [get_new_topics, hs, if_true, Except.ok.injEq] at h
      subst h
      simpa [bodyIds] using hn
    · simp only [get_new_topics, hs, if_false, Except.ok.injEq] at h
      subst h
      simp

theorem processTopics_sorted (sendFails : Topic → Bool) (mark : Nat) (b : List Topic)
    (h : (b.map getId).Nodup) :
    (procIds (processTopics sendFails mark b).1).Pairwise (· < ·) ∧
    (dispIds (processTopics sendFails mark b).1).Pairwise (· < ·) :=
  ⟨goProcess_procIds_pairwise sendFails (selectNew mark b) mark
      (selectNew_ids_pairwise mark b h),
   goProcess_dispIds_pairwise sendFails (selectNew mark b) mark
      (selectNew_ids_pairwise mark b h)⟩

/-! ### The claims -/

/-- C1: the high-water mark (`max_id` in `main`) is monotonically
non-decreasing: from any value of the mark — in particular from the baseline
set at initialization — every single cycle, and every finite sequence of
cycles, yields a mark greater than or equal to the mark before it, including
cycles whose fetch was empty, raised, or matched no rule. -/
theorem mark_monotone_over_cycles (mark : Nat) :
    (∀ env : CycleEnv, mark ≤ (runCycle env mark).2) ∧
    (∀ envs : List CycleEnv, mark ≤ runCycles envs mark) :=
  ⟨fun env => runCycle_mark_le env mark, fun envs => runCycles_mark_le envs mark⟩

/-- C2: in a steady-state cycle the candidate topics are exactly the fetched
topics whose id is strictly greater than the mark held before the cycle, and
every topic evaluated (dispatched or ignored) during any cycle has an id
strictly above that mark — topics with id ≤ mark are never processed. -/
theorem candidates_exactly_above_mark (mark : Nat) (topics : List Topic) (env : CycleEnv) :
    (∀ t : Topic, t ∈ selectNew mark topics ↔ t ∈ topics ∧ mark < getId t) ∧
    (∀ i ∈ procIds (runCycle env mark).1, mark < i) :=
  ⟨mem_selectNew mark topics, runCycle_ids_gt env mark⟩

/-- Witness for C2 at a concrete cycle: topic id 104 is processed and is
strictly above the mark 103. -/
theorem candidates_exactly_above_mark_witness :
    104 ∈ procIds (runCycle
      ⟨.ok (200, [⟨some 102, some 1, none, none, none⟩, ⟨some 104, some 1, none, none, none⟩]),
        false, .ok (200, []), fun _ => false⟩ 103).1 ∧ 103 < 104 :=
  ⟨by decide,
   (candidates_exactly_above_mark 103
      [⟨some 102, some 1, none, none, none⟩, ⟨some 104, some 1, none, none, none⟩]
      ⟨.ok (200, [⟨some 102, some 1, none, none, none⟩, ⟨some 104, some 1, none, none, none⟩]),
        false, .ok (200, []), fun _ => false⟩).2 104 (by decide)⟩

/-- C3: after a successful initial login, a raised initial `get_new_topics`
makes `main` return before the polling loop: no cycle is ever executed,
whatever cycle outcomes would have followed. -/
theorem init_fetch_error_aborts (envs : List CycleEnv) :
    mainRun true (.error ()) envs = none ∧ initMaxId (.error ()) = none :=
  ⟨rfl, rfl⟩

/-- C4: when the first fetch of a cycle returns the empty list, exactly one
re-login attempt is made; a re-fetch happens exactly once and only when that
re-login succeeds (fetch count 2 with a successful login, 1 otherwise); and if
the re-fetch is still empty — or the re-login failed — the cycle ends with the
mark unchanged, the cycle function returning normally (every in-cycle failure
is absorbed at the cycle boundary in this model, so no error crosses it). -/
theorem empty_fetch_single_relogin (env : CycleEnv) (mark : Nat)
    (h : get_new_topics env.resp1 = .ok []) :
    (runCycle env mark).1.count Ev.loginAttempt = 1 ∧
    (runCycle env mark).1.count Ev.fetchNew = (if env.loginOk then 2 else 1) ∧
    (env.loginOk = false → (runCycle env mark).2 = mark) ∧
    (env.loginOk = true → get_new_topics env.resp2 = .ok [] →
      (runCycle env mark).2 = mark) := by
  cases hl : env.loginOk with
  | false =>
    rw [runCycle_empty_login_fails env mark h hl]
    exact ⟨by rfl, by rfl, fun _ => rfl, fun hcontra _ => by simp at hcontra⟩
  | true =>
    cases h2 : get_new_topics env.resp2 with
    | error u2 =>
      cases u2
      rw [runCycle_empty_refetch_raises env mark h hl h2]
      exact ⟨by rfl, by rfl, fun hcontra => by simp at hcontra, fun _ _ => rfl⟩
    | ok b2 =>
      cases hne2 : b2.isEmpty with
      | true =>
        have hb2 : b2 = [] := List.isEmpty_iff.mp hne2
        subst hb2
        rw [runCycle_empty_refetch_empty env mark h hl h2]
        exact ⟨by rfl, by rfl, fun hcontra => by simp at hcontra, fun _ _ => rfl⟩
      | false =>
        have hg := goProcess_no_cycle_events env.sendFails (selectNew mark b2) mark
        have hz1 : (processTopics env.sendFails mark b2).1.count Ev.loginAttempt = 0 :=
          List.count_eq_zero.mpr hg.2
        have hz2 : (processTopics env.sendFails mark b2).1.count Ev.fetchNew = 0 :=
          List.count_eq_zero.mpr hg.1
        rw [runCycle_empty_refetch_nonempty env mark b2 h hl h2 hne2]
        refine ⟨?_, ?_, fun hcontra => by simp at hcontra, fun _ h2' => ?_⟩
        · simp [List.count_cons, hz1]
        · simp [List.count_cons, hz2]
        · have hb2 : b2 = [] := Except.ok.inj h2'
          subst hb2
          simp at hne2

/-- Witness for C4: an empty 200-response first fetch with a successful
re-login and a still-empty re-fetch gives one login attempt, two fetches, and
an unchanged mark. -/
theorem empty_fetch_single_relogin_witness :
    (runCycle ⟨.ok (200, []), true, .ok (200, []), fun _ => false⟩ 7).1.count
        Ev.loginAttempt = 1 ∧
    (runCycle ⟨.ok (200, []), true, .ok (200, []), fun _ => false⟩ 7).1.count
        Ev.fetchNew = 2 ∧
    (runCycle ⟨.ok (200, []), true, .ok (200, []), fun _ => false⟩ 7).2 = 7 := by
  have h := empty_fetch_single_relogin
    ⟨.ok (200, []), true, .ok (200, []), fun _ => false⟩ 7 (by rfl)
  exact ⟨h.1, by simpa using h.2.1, h.2.2.2 rfl rfl⟩

/-- C5: a cycle that fetched a non-empty batch and completed its processing
loop normally ends with the mark equal to the greatest fetched id exceeding
the previous mark (the previous mark when none exceeds it); unmatched topics
advance the mark exactly like matched ones, since `specNewMark` ignores the
rule. -/
theorem cycle_final_mark_spec (env : CycleEnv) (mark : Nat) (b : List Topic)
    (evs : List Ev) (m' : Nat)
    (hb : get_new_topics env.resp1 = .ok b ∧ b.isEmpty = false
       ∨ get_new_topics env.resp1 = .ok [] ∧ env.loginOk = true
         ∧ get_new_topics env.resp2 = .ok b ∧ b.isEmpty = false)
    (hp : processTopics env.sendFails mark b = (evs, some m')) :
    (runCycle env mark).2 = specNewMark mark b := by
  rcases hb with ⟨hf, hne⟩ | ⟨hf, hl, hf2, hne⟩
  · rw [runCycle_nonempty env mark b hf hne]
    simp only [hp, Option.getD_some]
    exact processTopics_some_eq env.sendFails mark b m' (by rw [hp])
  · rw [runCycle_empty_refetch_nonempty env mark b hf hl hf2 hne]
    simp only [hp, Option.getD_some]
    exact processTopics_some_eq env.sendFails mark b m' (by rw [hp])

/-- Witness for C5, the spec's scenario: baseline 103 from startup ids
[101, 102, 103]; a cycle fetching ids [102, 103, 104, 105] selects candidates
[104, 105], dispatches them in that order, and ends with mark 105. -/
theorem cycle_final_mark_spec_witness :
    (runCycle ⟨.ok (200,
        [⟨some 102, some 459, some "前端工程师招聘", none, none⟩,
         ⟨some 103, some 459, some "前端工程师招聘", none, none⟩,
         ⟨some 104, some 459, some "前端工程师招聘", none, none⟩,
         ⟨some 105, some 459, some "前端工程师招聘", none, none⟩]),
        false, .ok (200, []), fun _ => false⟩ 103).2
      = specNewMark 103
        [⟨some 102, some 459, some "前端工程师招聘", none, none⟩,
         ⟨some 103, some 459, some "前端工程师招聘", none, none⟩,
         ⟨some 104, some 459, some "前端工程师招聘", none, none⟩,
         ⟨some 105, some 459, some "前端工程师招聘", none, none⟩] ∧
    specNewMark 103
        [⟨some 102, some 459, some "前端工程师招聘", none, none⟩,
         ⟨some 103, some 459, some "前端工程师招聘", none, none⟩,
         ⟨some 104, some 459, some "前端工程师招聘", none, none⟩,
         ⟨some 105, some 459, some "前端工程师招聘", none, none⟩] = 105 ∧
    (selectNew 103
        [⟨some 102, some 459, some "前端工程师招聘", none, none⟩,
         ⟨some 103, some 459, some "前端工程师招聘", none, none⟩,
         ⟨some 104, some 459, some "前端工程师招聘", none, none⟩,
         ⟨some 105, some 459, some "前端工程师招聘", none, none⟩]).map getId
      = [104, 105] ∧
    initMaxId (.ok (200,
        [⟨some 101, some 1, none, none, none⟩,
         ⟨some 102, some 1, none, none, none⟩,
         ⟨some 103, some 1, none, none, none⟩])) = some 103 := by
  refine ⟨cycle_final_mark_spec _ 103 _ [Ev.dispatch 104, Ev.dispatch 105] 105
    (Or.inl ⟨by rfl, by decide⟩) (by decide), by decide, by decide, by decide⟩

/-- C6: within one cycle, assuming the fetched batches carry no duplicate ids
(ids are unique identifiers), the candidate topics are processed — and the
matched ones dispatched — in strictly ascending id order, whatever order the
API returned them in. -/
theorem cycle_processing_ascending (env : CycleEnv) (mark : Nat)
    (h1 : (bodyIds env.resp1).Nodup) (h2 : (bodyIds env.resp2).Nodup) :
    (procIds (runCycle env mark).1).Pairwise (· < ·) ∧
    (dispIds (runCycle env mark).1).Pairwise (· < ·) := by
  cases h : get_new_topics env.resp1 with
  | error u =>
    cases u
    rw [runCycle_fetch_raises env mark h]
    simp [procIds, dispIds, procEvId, dispEvId]
  | ok b =>
    cases hne : b.isEmpty with
    | true =>
      have hb : b = [] := List.isEmpty_iff.mp hne
      subst hb
      cases hl : env.loginOk with
      | false =>
        rw [runCycle_empty_login_fails env mark h hl]
        simp [procIds, dispIds, procEvId, dispEvId]
      | true =>
        cases h2' : get_new_topics env.resp2 with
        | error u2 =>
          cases u2
          rw [runCycle_empty_refetch_raises env mark h hl h2']
          simp [procIds, dispIds, procEvId, dispEvId]
        | ok b2 =>
          cases hne2 : b2.isEmpty with
          | true =>
            have hb2 : b2 = [] := List.isEmpty_iff.mp hne2
            subst hb2
            rw [runCycle_empty_refetch_empty env mark h hl h2']
            simp [procIds, dispIds, procEvId, dispEvId]
          | false =>
            rw [runCycle_empty_refetch_nonempty env mark b2 h hl h2' hne2]
            have hnd := get_new_topics_ok_nodup env.resp2 b2 h2' h2
            have hs := processTopics_sorted env.sendFails mark b2 hnd
            simpa [procIds, dispIds, List.filterMap_cons, procEvId, dispEvId] using hs
    | false =>
      rw [runCycle_nonempty env mark b h hne]
      have hnd := get_new_topics_ok_nodup env.resp1 b h h1
      have hs := processTopics_sorted env.sendFails mark b hnd
      simpa [procIds, dispIds, List.filterMap_cons, procEvId, dispEvId] using hs

/-- Witness for C6: an API batch returned in the order [105, 102, 104] is
processed as [104, 105] — ascending — at mark 103. -/
theorem cycle_processing_ascending_witness :
    (procIds (runCycle ⟨.ok (200,
        [⟨some 105, some 459, some "web前端", none, none⟩,
         ⟨some 102, some 1, none, none, none⟩,
         ⟨some 104, some 459, some "web前端", none, none⟩]),
        false, .ok (200, []), fun _ => false⟩ 103).1).Pairwise (· < ·) ∧
    (dispIds (runCycle ⟨.ok (200,
        [⟨some 105, some 459, some "web前端", none, none⟩,
         ⟨some 102, some 1, none, none, none⟩,
         ⟨some 104, some 459, some "web前端", none, none⟩]),
        false, .ok (200, []), fun _ => false⟩ 103).1).Pairwise (· < ·) :=
  cycle_processing_ascending
    ⟨.ok (200,
        [⟨some 105, some 459, some "web前端", none, none⟩,
         ⟨some 102, some 1, none, none, none⟩,
         ⟨some 104, some 459, some "web前端", none, none⟩]),
      false, .ok (200, []), fun _ => false⟩ 103 (by decide) (by decide)

/-- C7: `login()` returns false without making any network request whenever
client_id or client_secret is unresolved (absent or empty); it returns false
on a non-200 token response and on a raised request; and every failing call
leaves the previously stored access_token and refresh_token unchanged. -/
theorem login_failure_behavior (c : Client) (resp : Except Unit TokenResp) :
    ((truthyOpt c.client_id = false ∨ truthyOpt c.client_secret = false) →
      (login c resp).ok = false ∧ (login c resp).netCalls = 0) ∧
    (∀ r : TokenResp, resp = .ok r → r.status ≠ 200 → (login c resp).ok = false) ∧
    (resp = .error () → (login c resp).ok = false) ∧
    ((login c resp).ok = false →
      (login c resp).client.access_token = c.access_token ∧
      (login c resp).client.refresh_token = c.refresh_token) := by
  by_cases hid : (truthyOpt c.client_id && truthyOpt c.client_secret) = true
  · refine ⟨?_, ?_, ?_, ?_⟩
    · intro hor
      rcases Bool.and_eq_true _ _ |>.mp hid with ⟨ha, hb⟩
      rcases hor with h1 | h1
      · rw [h1] at ha; cases ha
      · rw [h1] at hb; cases hb
    · intro r hr hs
      subst hr
      simp [login, hid, hs]
    · intro hr
      subst hr
      simp [login, hid]
    · intro hok
      cases resp with
      | error u => simp [login, hid]
      | ok r =>
        by_cases hs : r.status = 200
        · simp [login, hid, hs] at hok
        · simp [login, hid, hs]
  · have hL : login c resp = ⟨false, c, 0⟩ := by simp [login, hid]
    exact ⟨fun _ => by simp [hL], fun r _ _ => by simp [hL], fun _ => by simp [hL],
      fun _ => by simp [hL]⟩

/-- Witness for C7: an unresolved client_id fails with zero network calls even
though a 200 response was available, and a 500 token response fails leaving
the stored access_token in place. -/
theorem login_failure_behavior_witness :
    (login ⟨none, some "s", some "tok", some "r"⟩ (.ok ⟨200, some "new", some "nr"⟩)).ok
        = false ∧
    (login ⟨none, some "s", some "tok", some "r"⟩ (.ok ⟨200, some "new", some "nr"⟩)).netCalls
        = 0 ∧
    (login ⟨some "i", some "s", some "tok", some "r"⟩ (.ok ⟨500, none, none⟩)).ok = false ∧
    (login ⟨some "i", some "s", some "tok", some "r"⟩
        (.ok ⟨500, none, none⟩)).client.access_token = some "tok" := by
  have h1 := login_failure_behavior ⟨none, some "s", some "tok", some "r"⟩
    (.ok ⟨200, some "new", some "nr"⟩)
  have h2 := login_failure_behavior ⟨some "i", some "s", some "tok", some "r"⟩
    (.ok ⟨500, none, none⟩)
  exact ⟨(h1.1 (Or.inl rfl)).1, (h1.1 (Or.inl rfl)).2,
    h2.2.1 ⟨500, none, none⟩ rfl (by decide),
    (h2.2.2.2 (h2.2.1 ⟨500, none, none⟩ rfl (by decide))).1⟩

/-- Counterexample to C8 as stated: board id 7 is present in the mapping, but
its stored name is the empty string, and `get_board_name` returns the
placeholder instead of the stored name (Python's `name or fallback` treats an
empty stored name as a miss). -/
theorem board_name_stored_empty_cex :
    mapGet [(7, "")] 7 = some "" ∧
    (get_board_name [(7, "")] (.ok (200, [])) (.ok (200, [])) 7).1 = "Unknown Board (7)" ∧
    ("Unknown Board (7)" : String) ≠ "" :=
  ⟨rfl, by decide, by decide⟩

/-- Behaviour of the lookup-refresh-fallback step shared by both entry paths
of `get_board_name`. -/
theorem boardNameAfterFill_spec (mA : List (Nat × String))
    (oN : Except Unit (Nat × List RootBoard)) (fc bid : Nat) :
    (∀ s, mapGet mA bid = some s → s.isEmpty = false →
      (boardNameAfterFill mA oN fc bid).1 = s ∧
      (boardNameAfterFill mA oN fc bid).2.2 = fc) ∧
    (falsyName (mapGet mA bid) = true →
      ∀ s, mapGet (refresh_board_map mA oN) bid = some s → s.isEmpty = false →
      (boardNameAfterFill mA oN fc bid).1 = s ∧
      (boardNameAfterFill mA oN fc bid).2.2 = fc + 1) ∧
    (falsyName (mapGet mA bid) = true →
      falsyName (mapGet (refresh_board_map mA oN) bid) = true →
      (boardNameAfterFill mA oN fc bid).1 = boardPlaceholder bid ∧
      (boardNameAfterFill mA oN fc bid).2.2 = fc + 1) := by
  refine ⟨?_, ?_, ?_⟩
  · intro s hs hse
    simp [boardNameAfterFill, hs, falsyName, nameOr, hse]
  · intro hf s hs hse
    simp [boardNameAfterFill, hf, hs, nameOr, hse]
  · intro hf hf2
    cases hmb : mapGet (refresh_board_map mA oN) bid with
    | none => simp [boardNameAfterFill, hf, hmb, nameOr]
    | some s =>
      rw [hmb] at hf2
      simp only [falsyName] at hf2
      simp [boardNameAfterFill, hf, hmb, nameOr, hf2]

/-- C8 amended: `get_board_name` (a total function — refresh failures are
caught) returns the stored name for every id whose stored name is non-empty,
found either in the mapping after the initial fill (`mA`: the map filled once
when it started empty, untouched otherwise) or after the single extra refresh
taken on a falsy lookup; the placeholder is returned only when both lookups
are falsy, and then exactly one refresh beyond the initial fill has run (two
refreshes in total from an empty mapping, so never on a first miss before any
fetch). -/
theorem get_board_name_spec (m0 mA : List (Nat × String))
    (o1 o2 oN : Except Unit (Nat × List RootBoard)) (fc bid : Nat)
    (hA : mA = if m0.isEmpty then refresh_board_map m0 o1 else m0)
    (hN : oN = if m0.isEmpty then o2 else o1)
    (hc : fc = if m0.isEmpty then 1 else 0) :
    (∀ s, mapGet mA bid = some s → s.isEmpty = false →
      (get_board_name m0 o1 o2 bid).1 = s ∧ (get_board_name m0 o1 o2 bid).2.2 = fc) ∧
    (falsyName (mapGet mA bid) = true →
      ∀ s, mapGet (refresh_board_map mA oN) bid = some s → s.isEmpty = false →
      (get_board_name m0 o1 o2 bid).1 = s ∧
      (get_board_name m0 o1 o2 bid).2.2 = fc + 1) ∧
    (falsyName (mapGet mA bid) = true →
      falsyName (mapGet (refresh_board_map mA oN) bid) = true →
      (get_board_name m0 o1 o2 bid).1 = boardPlaceholder bid ∧
      (get_board_name m0 o1 o2 bid).2.2 = fc + 1) := by
  subst hA hN hc
  by_cases hm : m0.isEmpty = true
  · simp only [get_board_name, hm, if_true]
    exact boardNameAfterFill_spec (refresh_board_map m0 o1) o2 1 bid
  · simp only [get_board_name, hm, if_false, Bool.not_eq_true] at *
    simp only [get_board_name, hm, Bool.false_eq_true, if_false]
    exact boardNameAfterFill_spec m0 o1 0 bid

/-- Witness for the amended C8: a hit found by the initial fill is returned
with one refresh; a doubly-missing id on a non-empty map falls back to the
placeholder after the single extra refresh. -/
theorem get_board_name_spec_witness :
    (get_board_name [] (.ok (200, [⟨1, "Root", [⟨5, "Board5"⟩]⟩])) (.ok (200, [])) 5).1
        = "Board5" ∧
    (get_board_name [] (.ok (200, [⟨1, "Root", [⟨5, "Board5"⟩]⟩])) (.ok (200, [])) 5).2.2
        = 1 ∧
    (get_board_name [(3, "X")] (.ok (200, [])) (.ok (200, [])) 7).1 = boardPlaceholder 7 ∧
    (get_board_name [(3, "X")] (.ok (200, [])) (.ok (200, [])) 7).2.2 = 1 := by
  have h1 := get_board_name_spec [] [(1, "Root"), (5, "Board5")]
    (.ok (200, [⟨1, "Root", [⟨5, "Board5"⟩]⟩])) (.ok (200, [])) (.ok (200, [])) 1 5
    (by rfl) (by rfl) (by rfl)
  have h2 := get_board_name_spec [(3, "X")] [(3, "X")]
    (.ok (200, [])) (.ok (200, [])) (.ok (200, [])) 0 7 (by rfl) (by rfl) (by rfl)
  exact ⟨(h1.1 "Board5" rfl rfl).1, (h1.1 "Board5" rfl rfl).2,
    (h2.2.2 rfl rfl).1, by simpa using (h2.2.2 rfl rfl).2⟩

/-- C9: the notification rule is the pure predicate "board id is 459 and the
lowercased title contains at least one keyword substring"; the spec's two
concrete examples evaluate as stated. -/
theorem rule_matches_spec_iff :
    (∀ t : Topic, check_topic_condition t = true ↔ specRuleMatch t) ∧
    check_topic_condition ⟨some 1, some 459, some "急招前端开发", none, none⟩ = true ∧
    check_topic_condition ⟨some 2, some 459, some "考试周求自习室", none, none⟩ = false := by
  refine ⟨fun t => ?_, by decide, by decide⟩
  unfold check_topic_condition specRuleMatch
  by_cases hb : t.boardId = some 459
  · simp only [hb, if_true]
    cases hA : KEYWORDS.any (fun keyword => strIn keyword (pyLower (t.title.getD ""))) with
    | true =>
      simp only [hA, if_true]
      simpa [List.any_eq_true] using hA
    | false =>
      simp only [hA, Bool.false_eq_true, if_false]
      constructor
      · intro hfalse; cases hfalse
      · intro hspec
        rcases hspec.2 with ⟨k, hk, hkin⟩
        have : KEYWORDS.any (fun keyword =>
            strIn keyword (pyLower (t.title.getD ""))) = true :=
          List.any_eq_true.mpr ⟨k, hk, hkin⟩
        rw [hA] at this
        cases this
  · simp only [hb, if_false]
    constructor
    · intro hfalse; cases hfalse
    · intro hspec; exact hspec.1.elim

/-- C10: a non-200 response to the newest-topics request makes
`get_new_topics` return the empty list instead of signalling the error, so at
the polling loop's call site such a cycle is literally identical — same event
trace, same mark — to a cycle whose fetch genuinely returned no topics, and it
triggers the same single-re-login recovery path. -/
theorem non200_same_as_empty (status : Nat) (body : List Topic) (lo : Bool)
    (r2 : Except Unit (Nat × List Topic)) (sendFails : Topic → Bool) (mark : Nat)
    (h : status ≠ 200) :
    get_new_topics (.ok (status, body)) = .ok [] ∧
    runCycle ⟨.ok (status, body), lo, r2, sendFails⟩ mark
      = runCycle ⟨.ok (200, []), lo, r2, sendFails⟩ mark := by
  have hg : get_new_topics (.ok (status, body)) = .ok [] := by
    simp [get_new_topics, h]
  refine ⟨hg, ?_⟩
  simp only [runCycle, hg]
  rfl

/-- Witness for C10: a 401 response carrying a topic behaves exactly like an
empty 200 response. -/
theorem non200_same_as_empty_witness :
    get_new_topics (.ok (401, [⟨some 9, some 459, some "web", none, none⟩])) = .ok [] ∧
    runCycle ⟨.ok (401, [⟨some 9, some 459, some "web", none, none⟩]), true,
        .ok (200, []), fun _ => false⟩ 0
      = runCycle ⟨.ok (200, []), true, .ok (200, []), fun _ => false⟩ 0 :=
  non200_same_as_empty 401 [⟨some 9, some 459, some "web", none, none⟩] true
    (.ok (200, [])) (fun _ => false) 0 (by decide)

end CC98Watchdog
